import Mathlib

/-
Verification of the Arc Viewer components (file linker, clipboard helper,
search index, tree viewer, live watcher).  Each JavaScript function is
shallowly embedded as an executable Lean definition; DOM and network
effects are made explicit as state records and outcome values.
-/

namespace Js

/-- Possibly-throwing result of a JavaScript operation: either a normal
value or a thrown exception. -/
inductive Outcome (α : Type) where
  | ok (a : α)
  | thrown
deriving DecidableEq

/-- ASCII lower-casing of one character, as performed by
String.prototype.toLowerCase on ASCII input. -/
def lowerChar (c : Char) : Char :=
  if 65 ≤ c.toNat ∧ c.toNat ≤ 90 then Char.ofNat (c.toNat + 32) else c

/-- Model of String.prototype.toLowerCase (ASCII range). -/
def toLower (s : String) : String := String.mk (s.toList.map lowerChar)

/-- Model of String.prototype.trim: drop leading and trailing whitespace. -/
def trim (s : String) : String :=
  String.mk ((((s.toList.dropWhile (fun c => c.isWhitespace)).reverse).dropWhile
    (fun c => c.isWhitespace)).reverse)

/-- Boolean test that the list `p` is an initial segment of `l`. -/
def startsWithL [DecidableEq α] : List α → List α → Bool
  | [], _ => true
  | _ :: _, [] => false
  | p :: ps, c :: cs => if p = c then startsWithL ps cs else false

/-- Model of String.prototype.startsWith. -/
def startsWith (s pre : String) : Bool := startsWithL pre.toList s.toList

/-- Boolean substring test on lists (needle occurs contiguously in hay). -/
def includesL [DecidableEq α] (hay needle : List α) : Bool :=
  hay.tails.any (fun t => startsWithL needle t)

/-- Model of String.prototype.includes. -/
def includes (hay needle : String) : Bool := includesL hay.toList needle.toList

/-- Model of String.prototype.split with a single-character separator:
splits at every occurrence, keeping empty segments, like the JavaScript
split with a string argument. -/
def splitChar (sep : Char) : List Char → List (List Char)
  | [] => [[]]
  | c :: cs =>
    let rest := splitChar sep cs
    if c = sep then [] :: rest
    else (c :: rest.headD []) :: rest.tail

/-- String-level wrapper of `splitChar`. -/
def split (s : String) (sep : Char) : List String :=
  (splitChar sep s.toList).map String.mk

/-- Helper for splitting on whitespace runs: `run` is the reversed current
token, the second argument the remaining input. -/
def wsRunsGo : List Char → List Char → List (List Char)
  | run, [] => if run = [] then [] else [run.reverse]
  | run, c :: cs =>
    if c.isWhitespace then
      if run = [] then wsRunsGo [] cs else run.reverse :: wsRunsGo [] cs
    else wsRunsGo (c :: run) cs

/-- Maximal non-whitespace runs of a character list. -/
def wsRuns (cs : List Char) : List (List Char) := wsRunsGo [] cs

/-- Model of `s.trim().split(/\s+/)` from the route-to-path conversion:
the empty trimmed string yields a single empty segment, as the JavaScript
regex split does; otherwise the whitespace-separated tokens. -/
def splitWsTrimmed (s : String) : List String :=
  let t := trim s
  if t = "" then [""] else (wsRuns t.toList).map String.mk

/-- Decimal digit characters of `n`, most significant first, computed with
structural fuel (`n + 1` digits is always enough). -/
def natCharsF : Nat → Nat → List Char
  | 0, _ => []
  | fuel + 1, n =>
    if n < 10 then [Nat.digitChar n]
    else natCharsF fuel (n / 10) ++ [Nat.digitChar (n % 10)]

/-- Decimal digit characters of `n`. -/
def natChars (n : Nat) : List Char := natCharsF (n + 1) n

/-- Model of the JavaScript number-to-string coercion for array indices,
as used by the template literals that build node ids. -/
def natToString (n : Nat) : String := String.mk (natChars n)

/-- Value of a list of decimal digit characters (most significant first). -/
def digitsVal (cs : List Char) : Nat :=
  cs.foldl (fun a c => a * 10 + (c.toNat - 48)) 0

/-- Model of JavaScript parseInt with radix 10: skip leading whitespace,
accept one optional sign, read the maximal digit run; `none` models NaN
(no digits at all). -/
def parseInt (s : String) : Option Int :=
  let cs := s.toList.dropWhile (fun c => c.isWhitespace)
  let signNeg : Bool := cs.head? = some '-'
  let signPos : Bool := cs.head? = some '+'
  let cs2 := if signNeg ∨ signPos then cs.tail else cs
  let digits := cs2.takeWhile (fun c => c.isDigit)
  if digits = [] then none
  else some ((if signNeg then -1 else 1) * (digitsVal digits : Int))

/-- parseInt applied to a possibly-absent string; `parseInt(undefined)`
is NaN in JavaScript. -/
def parseIntOpt : Option String → Option Int
  | none => none
  | some s => parseInt s

/-- Model of JavaScript array indexing `arr[idx]` where `idx` is the result
of parseInt: NaN and negative indices read `undefined`. -/
def indexOpt (l : List α) : Option Int → Option α
  | none => none
  | some i => if 0 ≤ i then l[i.toNat]? else none

/-- Index-passing list map, modelling `Array.prototype.map` with the
callback receiving the element index; `k` is the index of the head. -/
def mapIdxFrom (f : Nat → α → β) : Nat → List α → List β
  | _, [] => []
  | k, a :: as => f k a :: mapIdxFrom f (k + 1) as

end Js

namespace FileLinker

/-- Model of `routeToPath` from arc-file-linker.js: parse an optional
method in front of the path (defaulting to get, with the path then being
the whole untrimmed argument), join the non-empty path segments with
dashes, lower-cased. -/
def routeToPath (routeDefinition : String) : String :=
  let parts := Js.splitWsTrimmed routeDefinition
  let method := if parts.length = 2 then Js.toLower ((parts[0]?).getD "") else "get"
  let path := if parts.length = 2 then (parts[1]?).getD "" else routeDefinition
  let pathSegments :=
    Js.toLower (String.intercalate "-" ((Js.split path '/').filter (fun seg => seg ≠ "")))
  "src/http/" ++ method ++ "-" ++ pathSegments ++ "/index.mjs"

/-- Model of `getLinkPath` from arc-file-linker.js; `none` models the
null result of the default switch branch. -/
def getLinkPath (nodeType nodeName : String) : Option String :=
  if nodeType = "route" then some (routeToPath nodeName)
  else if nodeType = "lambda" then some ("src/lambdas/" ++ nodeName)
  else if nodeType = "table" then some ("src/tables/" ++ nodeName ++ ".ts")
  else none

end FileLinker

namespace ArcCopy

/-- The document state the clipboard helper touches: how many temporary
textarea elements are currently attached, and the toasts shown so far
(message, kind). -/
structure Dom where
  tempTextareas : Nat
  toasts : List (String × String)
deriving DecidableEq

/-- Behaviour of the platform facilities `copy` depends on. -/
structure CopyEnv where
  clipboardAvailable : Bool
  isSecureContext : Bool
  clipboardWrite : Js.Outcome Unit
  execCommand : Js.Outcome Bool
deriving DecidableEq

/-- Model of `showToast`: appends a transient toast element. -/
def showToast (dom : Dom) (message kind : String) : Dom :=
  { dom with toasts := dom.toasts ++ [(message, kind)] }

/-- Model of `copyUsingExecCommand`: append a hidden textarea, run
execCommand inside try/catch, and remove the textarea in the finally
block on every exit path. -/
def copyUsingExecCommand (env : CopyEnv) (dom : Dom) (text : String) : Bool × Dom :=
  let dom1 := { dom with tempTextareas := dom.tempTextareas + 1 }
  let (result, dom2) :=
    match env.execCommand with
    | Js.Outcome.ok true => (true, showToast dom1 ("Copied: " ++ text) "success")
    | Js.Outcome.ok false => (false, showToast dom1 "Failed to copy" "error")
    | Js.Outcome.thrown => (false, showToast dom1 "Failed to copy" "error")
  (result, { dom2 with tempTextareas := dom2.tempTextareas - 1 })

/-- Model of `copy`: use the platform clipboard in a secure context, else
the execCommand fallback; the surrounding try/catch turns any thrown
error into a false result plus an error toast, so the caller never sees
an exception. -/
def copy (env : CopyEnv) (dom : Dom) (text : String) : Js.Outcome Bool × Dom :=
  if env.clipboardAvailable && env.isSecureContext then
    match env.clipboardWrite with
    | Js.Outcome.ok _ => (Js.Outcome.ok true, showToast dom ("Copied: " ++ text) "success")
    | Js.Outcome.thrown => (Js.Outcome.ok false, showToast dom "Failed to copy" "error")
  else
    let (r, dom1) := copyUsingExecCommand env dom text
    (Js.Outcome.ok r, dom1)

/-- Model of the string built by `copyArn`: the region argument is
accepted but never interpolated. -/
def copyArnString (method path _region : String) : String :=
  "arn:arc:route:" ++ method ++ ":" ++ path

end ArcCopy

namespace ArcWatcher

/-- State of an ArcWatcher instance, restricted to the polling path:
whether the instance is watching, whether a poll timer is pending,
whether a fetch started by a fired timer is still awaiting its response,
and the last observed serialized snapshot (the fingerprint). -/
structure Watcher where
  isWatching : Bool
  timerPending : Bool
  fetchInFlight : Bool
  lastData : Option String
deriving DecidableEq

/-- Model of the fingerprint comparison in the poll callback: when the
serialized snapshot differs from lastData the fingerprint is updated and
the change handler fires (second component true). -/
def observe (lastData : Option String) (hash : String) : Option String × Bool :=
  if lastData ≠ some hash then (some hash, true) else (lastData, false)

/-- Model of `startPolling`: a no-op when not watching, otherwise a new
poll timer is scheduled. -/
def startPolling (w : Watcher) : Watcher :=
  if !w.isWatching then w else { w with timerPending := true }

/-- The pending poll timer elapses: its callback starts the fetch. -/
def timerFire (w : Watcher) : Watcher :=
  if w.timerPending then { w with timerPending := false, fetchInFlight := true } else w

/-- The in-flight fetch settles, with `some hash` the serialized snapshot
of a successful response and `none` a fetch or HTTP error.
On success the fingerprint comparison may fire the change handler; the
error path only logs; the finally block reschedules via startPolling
either way.  Returns the new state and whether the handler fired. -/
def fetchSettle (w : Watcher) (outcome : Option String) : Watcher × Bool :=
  if !w.fetchInFlight then (w, false)
  else
    let w1 := { w with fetchInFlight := false }
    match outcome with
    | none => (startPolling w1, false)
    | some hash =>
      let (last, fired) := observe w1.lastData hash
      (startPolling { w1 with lastData := last }, fired)

/-- Model of `stop`: early return when not watching, otherwise clear the
watching flag and cancel the pending poll timer. -/
def stop (w : Watcher) : Watcher :=
  if !w.isWatching then w
  else { w with isWatching := false, timerPending := false }

/-- The asynchronous events the polling path reacts to. -/
inductive WEvent where
  | timer
  | fetch (outcome : Option String)
  | stopEv
deriving DecidableEq

/-- One event step; the Bool reports a change-handler invocation. -/
def stepW (w : Watcher) : WEvent → Watcher × Bool
  | WEvent.timer => (timerFire w, false)
  | WEvent.fetch o => fetchSettle w o
  | WEvent.stopEv => (stop w, false)

/-- Run a sequence of events, counting change-handler invocations. -/
def runW : Watcher → List WEvent → Watcher × Nat
  | w, [] => (w, 0)
  | w, e :: es =>
    let (w1, fired) := stepW w e
    let (w2, n) := runW w1 es
    (w2, (if fired then 1 else 0) + n)

/-- Pure dedup loop over the serialized snapshots of successive
successful polls: returns the final fingerprint and, per poll, whether
the change handler fired. -/
def runPolls : Option String → List String → Option String × List Bool
  | st, [] => (st, [])
  | st, h :: hs =>
    let (st1, fired) := observe st h
    let (st2, rest) := runPolls st1 hs
    (st2, fired :: rest)

/-- A watcher that is stopped with no pending timer and no in-flight
fetch is quiescent: no event sequence changes it or fires the handler. -/
theorem runW_quiescent (evs : List WEvent) (w : Watcher)
    (hw : w.isWatching = false) (ht : w.timerPending = false)
    (hf : w.fetchInFlight = false) : runW w evs = (w, 0) := by
  induction evs with
  | nil => rfl
  | cons e es ih =>
    have hstep : stepW w e = (w, false) := by
      cases e with
      | timer => simp [stepW, timerFire, ht]
      | fetch o => simp [stepW, fetchSettle, hf]
      | stopEv => simp [stepW, stop, hw]
    simp [runW, hstep, ih]

/-- A watcher that is stopped with no pending timer fires the handler at
most once (only a fetch already in flight can still fire). -/
theorem runW_after_stop_le_one (evs : List WEvent) (w : Watcher)
    (hw : w.isWatching = false) (ht : w.timerPending = false) :
    (runW w evs).2 ≤ (if w.fetchInFlight then 1 else 0) := by
  induction evs generalizing w with
  | nil => simp [runW]
  | cons e es ih =>
    cases e with
    | timer =>
      have : timerFire w = w := by simp [timerFire, ht]
      simpa [runW, stepW, this] using ih w hw ht
    | stopEv =>
      have : stop w = w := by simp [stop, hw]
      simpa [runW, stepW, this] using ih w hw ht
    | fetch o =>
      by_cases hf : w.fetchInFlight
      · have hsp : ∀ v : Watcher, v.isWatching = false → startPolling v = v := by
          intro v hv; simp [startPolling, hv]
        have hquiet : ∀ v : Watcher, v.isWatching = false → v.timerPending = false →
            v.fetchInFlight = false → (runW v es).2 = 0 := by
          intro v h1 h2 h3; simp [runW_quiescent es v h1 h2 h3]
        cases o with
        | none =>
          have h0 := hquiet { w with fetchInFlight := false } (by simpa using hw)
            (by simpa using ht) rfl
          simp [runW, stepW, fetchSettle, hf,
            hsp { w with fetchInFlight := false } (by simpa using hw), h0]
        | some hash =>
          rcases hob : observe w.lastData hash with ⟨last, fired⟩
          have h0 := hquiet { w with fetchInFlight := false, lastData := last } (by simpa using hw) (by simpa using ht) rfl
          have h1 := hsp { w with fetchInFlight := false, lastData := last } (by simpa using hw)
          simp only [runW, stepW, fetchSettle, hf, Bool.not_true, Bool.false_eq_true,
            if_false, hob, h1]
          cases fired <;> simp [h0, hf]
      · have hf' : w.fetchInFlight = false := by simpa using hf
        have hfs : fetchSettle w o = (w, false) := by simp [fetchSettle, hf']
        have := ih w hw ht
        simp only [runW, stepW, hfs, hf'] at this ⊢
        simpa using this

end ArcWatcher

namespace ArcSearch

/-- A flattened search item as built by ArcSearch.init. -/
structure SearchItem where
  type : String
  name : String
  searchText : String
  path : Option String := none
  method : Option String := none
  functionName : Option String := none
deriving DecidableEq

/-- State of an ArcSearch instance: the stored item list, the optional
external fuzzy engine (present only when Fuse.js loaded; its ranking is
outside this development), and the cached last results. -/
structure SearchState where
  items : List SearchItem
  fuse : Option (String → List SearchItem)
  lastResults : Option (List SearchItem)

/-- The guard of ArcSearch.search: a falsy (empty) query or one that is
whitespace-only. -/
def emptyQuery (query : String) : Bool := query == "" || Js.trim query == ""

/-- Model of `ArcSearch.search`: empty or whitespace-only queries clear
the cache and return nothing; otherwise the fuzzy engine answers when
active, else a linear case-insensitive substring scan of searchText. -/
def search (st : SearchState) (query : String) : List SearchItem × SearchState :=
  if emptyQuery query then ([], { st with lastResults := none })
  else
    match st.fuse with
    | some engine =>
      let results := engine query
      (results, { st with lastResults := some results })
    | none =>
      let lowerQuery := Js.toLower query
      let results := st.items.filter (fun item => Js.includes (Js.toLower item.searchText) lowerQuery)
      (results, { st with lastResults := some results })

end ArcSearch

namespace TreeViewer

/-- Observable outcome of one click on a tree-node copy control. -/
structure BtnOutcome where
  copied : Option String
  textShown : String
  revertDelayMs : Nat
  timerResult : Js.Outcome String
deriving DecidableEq

/-- In the catch block of the copy-button handler the name originalText
is not in scope: it was declared with const inside the try block, whose
block scope does not extend to the catch block, so the revert callback
scheduled there raises a ReferenceError when it runs.  This constant
models that failed lookup. -/
def catchScopeOriginalText : Option String := none

/-- Model of the copy-button click handler wired in setupEventListeners:
dataValue is the data-value attribute of the control and currentText its
text content before the click.  On success the handler records the old
text, shows the confirmation and schedules a 2000 ms revert to the old
text; on a clipboard error it shows the failure text and schedules a
revert whose callback looks up originalText in the catch scope. -/
def copyBtnClick (clipboardOk : Bool) (dataValue currentText : String) : BtnOutcome :=
  if clipboardOk then
    let originalText := currentText
    { copied := some dataValue, textShown := "✓ Copied!", revertDelayMs := 2000,
      timerResult := Js.Outcome.ok originalText }
  else
    { copied := none, textShown := "✗ Failed", revertDelayMs := 2000,
      timerResult :=
        match catchScopeOriginalText with
        | some t => Js.Outcome.ok t
        | none => Js.Outcome.thrown }

/-- The button text after the revert timer ran: the callback assignment
when it succeeded, otherwise the text left as it was shown. -/
def finalButtonText (o : BtnOutcome) : String :=
  match o.timerResult with
  | Js.Outcome.ok t => t
  | Js.Outcome.thrown => o.textShown

end TreeViewer

/-- Lists: startsWithL p l holds exactly when l extends p. -/
theorem Js.startsWithL_iff [DecidableEq α] (p l : List α) :
    Js.startsWithL p l = true ↔ ∃ r, l = p ++ r := by
  induction p generalizing l with
  | nil =>
    simp only [Js.startsWithL, List.nil_append, true_iff]
    exact ⟨l, rfl⟩
  | cons x ps ih =>
    cases l with
    | nil => simp [Js.startsWithL]
    | cons y ys =>
      by_cases h : x = y
      · subst h
        simp [Js.startsWithL, ih]
      · simp only [Js.startsWithL, if_neg h, Bool.false_eq_true, false_iff]
        rintro ⟨r, hr⟩
        injection hr with h1 h2
        exact h h1.symm

/-- Lists: includesL hay needle holds exactly when needle occurs
contiguously inside hay. -/
theorem Js.includesL_iff [DecidableEq α] (hay needle : List α) :
    Js.includesL hay needle = true ↔ ∃ a b, hay = a ++ needle ++ b := by
  simp only [Js.includesL, List.any_eq_true]
  constructor
  · rintro ⟨t, ht, hst⟩
    rw [List.mem_tails] at ht
    rcases (Js.startsWithL_iff needle t).1 hst with ⟨r, rfl⟩
    rcases ht with ⟨a, rfl⟩
    exact ⟨a, r, by simp⟩
  · rintro ⟨a, b, rfl⟩
    refine ⟨needle ++ b, ?_, (Js.startsWithL_iff needle _).2 ⟨b, rfl⟩⟩
    rw [List.mem_tails]
    exact ⟨a, by simp⟩

/-- C2 (counterexample): polled snapshot sequence A A B B C from a fresh
watcher fires the change handler three times, not twice: the first poll
already differs from the absent initial fingerprint. -/
theorem ArcWatcher.runPolls_AABBC_fires_three_times :
    (ArcWatcher.runPolls none ["A", "A", "B", "B", "C"]).2 = [true, false, true, false, true] ∧
    (ArcWatcher.runPolls none ["A", "A", "B", "B", "C"]).2.count true = 3 ∧
    ¬ (ArcWatcher.runPolls none ["A", "A", "B", "B", "C"]).2.count true = 2 := by
  decide

/-- C2 (amended): from a fresh watcher the change handler fires exactly
when the serialized snapshot differs from the last observed one, which
includes the very first successful poll; on A A B B C with pairwise
distinct serializations it fires exactly three times, and an immediately
repeated snapshot never fires. -/
theorem ArcWatcher.runPolls_dedup (a b c : String) (hab : a ≠ b) (hbc : b ≠ c) :
    (ArcWatcher.runPolls none [a, a, b, b, c]).2 = [true, false, true, false, true] ∧
    (ArcWatcher.runPolls none [a, a, b, b, c]).2.count true = 3 ∧
    (∀ st s rest, ((ArcWatcher.runPolls st (s :: s :: rest)).2)[1]? = some false) := by
  refine ⟨?_, ?_, ?_⟩
  · simp [ArcWatcher.runPolls, ArcWatcher.observe, hab, hbc]
  · simp [ArcWatcher.runPolls, ArcWatcher.observe, hab, hbc]
  · intro st s rest
    by_cases h : st = some s
    · simp [ArcWatcher.runPolls, ArcWatcher.observe, h]
    · simp [ArcWatcher.runPolls, ArcWatcher.observe, h]

/-- Witness for C2: the amended count at concrete snapshots. -/
theorem ArcWatcher.runPolls_dedup_witness :
    (ArcWatcher.runPolls none ["a", "a", "b", "b", "c"]).2.count true = 3 :=
  (ArcWatcher.runPolls_dedup "a" "b" "c" (by decide) (by decide)).2.1

/-- A watcher in the polling state with a pending poll timer: the state
reached right after startPolling scheduled a poll. -/
def ArcWatcher.wPolling : ArcWatcher.Watcher :=
  { isWatching := true, timerPending := true, fetchInFlight := false, lastData := none }

/-- C3 (counterexample): if the poll timer has already fired when stop is
called, the fetch still in flight settles after stop returns and invokes
the change handler once. -/
theorem ArcWatcher.handler_fires_after_stop :
    (ArcWatcher.runW (ArcWatcher.stop (ArcWatcher.timerFire ArcWatcher.wPolling))
      [ArcWatcher.WEvent.fetch (some "X")]).2 = 1 := by
  decide

/-- C3 (amended): stop is idempotent and cancels the pending poll timer;
when no fetch is in flight at stop time no change-handler invocation ever
occurs afterwards, and in general at most the one already in-flight fetch
can still fire. -/
theorem ArcWatcher.stop_spec (w : ArcWatcher.Watcher) (hw : w.isWatching = true) :
    ArcWatcher.stop (ArcWatcher.stop w) = ArcWatcher.stop w ∧
    (ArcWatcher.stop w).timerPending = false ∧
    (w.fetchInFlight = false →
      ∀ evs, ArcWatcher.runW (ArcWatcher.stop w) evs = (ArcWatcher.stop w, 0)) ∧
    (∀ evs, (ArcWatcher.runW (ArcWatcher.stop w) evs).2 ≤ 1) := by
  have hs : ArcWatcher.stop w = { w with isWatching := false, timerPending := false } := by
    simp [ArcWatcher.stop, hw]
  refine ⟨?_, ?_, ?_, ?_⟩
  · rw [hs]; simp [ArcWatcher.stop]
  · simp [hs]
  · intro hf evs
    exact ArcWatcher.runW_quiescent evs _ (by simp [hs]) (by simp [hs]) (by simp [hs, hf])
  · intro evs
    have h := ArcWatcher.runW_after_stop_le_one evs (ArcWatcher.stop w)
      (by simp [hs]) (by simp [hs])
    exact h.trans (by split <;> omega)

/-- Witness for C3: stopping the concrete polling watcher silences it. -/
theorem ArcWatcher.stop_spec_witness :
    ArcWatcher.runW (ArcWatcher.stop ArcWatcher.wPolling)
      [ArcWatcher.WEvent.timer, ArcWatcher.WEvent.fetch (some "X")] =
      (ArcWatcher.stop ArcWatcher.wPolling, 0) :=
  (ArcWatcher.stop_spec ArcWatcher.wPolling rfl).2.2.1 rfl
    [ArcWatcher.WEvent.timer, ArcWatcher.WEvent.fetch (some "X")]

/-- The route item of the documented search example. -/
def ArcSearch.demoRouteItem : ArcSearch.SearchItem :=
  { type := "route", name := "GET /api/users", searchText := "GET /api/users" }

/-- The lambda item of the documented search example. -/
def ArcSearch.demoLambdaItem : ArcSearch.SearchItem :=
  { type := "lambda", name := "notifier", searchText := "notifier" }

/-- A fallback-mode search state over the two documented items. -/
def ArcSearch.demoSearchState : ArcSearch.SearchState :=
  { items := [ArcSearch.demoRouteItem, ArcSearch.demoLambdaItem],
    fuse := none, lastResults := none }

/-- C9: an empty or whitespace-only query returns nothing and clears the
cached results; in fallback mode a non-empty query returns exactly the
stored items whose searchText contains the query case-insensitively, in
stored order, and caches them; in particular the query api against the
documented two items returns only the route item. -/
theorem ArcSearch.search_spec :
    (∀ st q, Js.trim q = "" →
      ArcSearch.search st q = ([], { st with lastResults := none })) ∧
    (∀ st q, st.fuse = none → ¬ Js.trim q = "" →
      List.Sublist (ArcSearch.search st q).1 st.items ∧
      (∀ item, item ∈ (ArcSearch.search st q).1 ↔ item ∈ st.items ∧
        ∃ a b, (Js.toLower item.searchText).toList = a ++ (Js.toLower q).toList ++ b) ∧
      (ArcSearch.search st q).2.lastResults = some (ArcSearch.search st q).1) ∧
    ((ArcSearch.search ArcSearch.demoSearchState "api").1 = [ArcSearch.demoRouteItem] ∧
     (ArcSearch.search ArcSearch.demoSearchState "api").2.lastResults =
       some [ArcSearch.demoRouteItem]) := by
  refine ⟨?_, ?_, by decide, by decide⟩
  · intro st q h
    have hc : ArcSearch.emptyQuery q = true := by simp [ArcSearch.emptyQuery, h]
    simp [ArcSearch.search, hc]
  · intro st q hfuse hq
    have hq' : ¬ q = "" := by
      intro h0
      exact hq (by simp [h0, Js.trim, String.mk])
    have hc : ArcSearch.emptyQuery q = false := by simp [ArcSearch.emptyQuery, hq', hq]
    refine ⟨?_, ?_, ?_⟩
    · simp only [ArcSearch.search, hfuse, hc, Bool.false_eq_true, if_false]
      exact List.filter_sublist _
    · intro item
      simp only [ArcSearch.search, hfuse, hc, Bool.false_eq_true, if_false, List.mem_filter]
      simp only [Js.includes]
      rw [Js.includesL_iff]
    · simp [ArcSearch.search, hfuse, hc]

/-- Witness for C9: the blank query clears, the api query filters. -/
theorem ArcSearch.search_spec_witness :
    ArcSearch.search ArcSearch.demoSearchState "   " =
      ([], { ArcSearch.demoSearchState with lastResults := none }) ∧
    List.Sublist (ArcSearch.search ArcSearch.demoSearchState "api").1
      ArcSearch.demoSearchState.items :=
  ⟨ArcSearch.search_spec.1 ArcSearch.demoSearchState "   " (by decide),
   (ArcSearch.search_spec.2.1 ArcSearch.demoSearchState "api" rfl (by decide)).1⟩

/-- C8: clicking a copy control copies the data-value and shows the
confirmation for 2000 ms before reverting on success; on a copy error it
shows the failure text, but the scheduled revert callback throws a
ReferenceError (originalText is scoped to the try block), so the button
keeps showing the failure text instead of reverting. -/
theorem TreeViewer.copyBtn_error_path_never_reverts :
    (TreeViewer.copyBtnClick true "GET /x" "📋").copied = some "GET /x" ∧
    (TreeViewer.copyBtnClick true "GET /x" "📋").textShown = "✓ Copied!" ∧
    (TreeViewer.copyBtnClick true "GET /x" "📋").revertDelayMs = 2000 ∧
    TreeViewer.finalButtonText (TreeViewer.copyBtnClick true "GET /x" "📋") = "📋" ∧
    (TreeViewer.copyBtnClick false "GET /x" "📋").textShown = "✗ Failed" ∧
    (TreeViewer.copyBtnClick false "GET /x" "📋").timerResult = Js.Outcome.thrown ∧
    TreeViewer.finalButtonText (TreeViewer.copyBtnClick false "GET /x" "📋") = "✗ Failed" := by
  decide

namespace TreeViewer

/-- A route entry of the Manifest Model. -/
structure Route where
  method : String
  path : String
  functionName : String
deriving DecidableEq

/-- A lambda entry of the Manifest Model. -/
structure LambdaFn where
  name : String
deriving DecidableEq

/-- A table entry of the Manifest Model. -/
structure TableDef where
  name : String
  attributes : List String := []
deriving DecidableEq

/-- The Manifest Model consumed by the tree viewer; absent arrays are
modelled as empty lists, matching the defaulting in getNode. -/
structure ArcData where
  routes : List Route := []
  lambdas : List LambdaFn := []
  tables : List TableDef := []
deriving DecidableEq

/-- The three per-category visibility toggles. -/
structure ToggleStates where
  routes : Bool := true
  lambdas : Bool := true
  tables : Bool := true
deriving DecidableEq

/-- An entity a node id resolves to. -/
inductive Entity where
  | route (r : Route)
  | lambdaFn (l : LambdaFn)
  | tableDef (t : TableDef)
deriving DecidableEq

/-- Model of ArcTreeViewer.getNode: dispatch on the id prefix, parseInt
the second dash-separated segment and index the corresponding list.
The outer Option models the null of the final return; the inner Option
models an undefined data field from an out-of-range index. -/
def getNode (arcData : ArcData) (nodeId : String) : Option (String × Option Entity) :=
  let routes := arcData.routes
  let lambdas := arcData.lambdas
  let tables := arcData.tables
  if Js.startsWith nodeId "route-" then
    let idx := Js.parseIntOpt ((Js.split nodeId '-')[1]?)
    some ("route", (Js.indexOpt routes idx).map Entity.route)
  else if Js.startsWith nodeId "lambda-" then
    let idx := Js.parseIntOpt ((Js.split nodeId '-')[1]?)
    some ("lambda", (Js.indexOpt lambdas idx).map Entity.lambdaFn)
  else if Js.startsWith nodeId "table-" then
    let idx := Js.parseIntOpt ((Js.split nodeId '-')[1]?)
    some ("table", (Js.indexOpt tables idx).map Entity.tableDef)
  else none

/-- A leaf node of the built tree; the category-specific fields are
optional, matching the object shapes produced by buildTree. -/
structure LeafNode where
  id : String
  name : String
  type : String
  path : Option String := none
  method : Option String := none
  functionName : Option String := none
deriving DecidableEq

/-- A category group node of the built tree. -/
structure GroupNode where
  id : String
  name : String
  children : List LeafNode
deriving DecidableEq

/-- The route child at list index idx, as mapped inside buildTree. -/
def routeChild (idx : Nat) (route : Route) : LeafNode :=
  { id := "route-" ++ Js.natToString idx,
    name := route.method ++ " " ++ route.path,
    path := some route.path,
    method := some route.method,
    functionName := some route.functionName,
    type := "route" }

/-- The lambda child at list index idx, as mapped inside buildTree. -/
def lambdaChild (idx : Nat) (l : LambdaFn) : LeafNode :=
  { id := "lambda-" ++ Js.natToString idx, name := l.name, type := "lambda" }

/-- The table child at list index idx, as mapped inside buildTree. -/
def tableChild (idx : Nat) (t : TableDef) : LeafNode :=
  { id := "table-" ++ Js.natToString idx, name := t.name, type := "table" }

/-- The Routes group pushed by buildTree. -/
def routesGroup (d : ArcData) : GroupNode :=
  { id := "routes-group", name := "Routes", children := Js.mapIdxFrom routeChild 0 d.routes }

/-- The Lambdas group pushed by buildTree. -/
def lambdasGroup (d : ArcData) : GroupNode :=
  { id := "lambdas-group", name := "Lambdas", children := Js.mapIdxFrom lambdaChild 0 d.lambdas }

/-- The Tables group pushed by buildTree. -/
def tablesGroup (d : ArcData) : GroupNode :=
  { id := "tables-group", name := "Tables", children := Js.mapIdxFrom tableChild 0 d.tables }

/-- Model of ArcTreeViewer.buildTree: push each category group when its
toggle is on and its source list is non-empty, in the fixed
routes-lambdas-tables order. -/
def buildTree (d : ArcData) (t : ToggleStates) : List GroupNode :=
  (if t.routes && !d.routes.isEmpty then [routesGroup d] else []) ++
  (if t.lambdas && !d.lambdas.isEmpty then [lambdasGroup d] else []) ++
  (if t.tables && !d.tables.isEmpty then [tablesGroup d] else [])

/-- Serialization of one text character by the browser when innerHTML is
read back: ampersand, the angle brackets and the no-break space are
escaped, everything else (quotes included) is kept. -/
def escChar (c : Char) : String :=
  if c = '&' then "&amp;"
  else if c = '<' then "&lt;"
  else if c = '>' then "&gt;"
  else if c = Char.ofNat 160 then "&nbsp;"
  else String.mk [c]

/-- Model of ArcTreeViewer.escapeHtml: assign the text to textContent of
a detached div and read innerHTML, i.e. HTML text-node serialization. -/
def escapeHtml (text : String) : String :=
  String.join (text.toList.map escChar)

/-- Model of getNodeIcon. -/
def getNodeIcon (type : String) : String :=
  if type = "route" then "🛣️"
  else if type = "lambda" then "⚡"
  else if type = "table" then "📊"
  else "📄"

/-- JavaScript template interpolation of a possibly undefined field. -/
def jsStr : Option String → String
  | some s => s
  | none => "undefined"

/-- Model of ArcTreeViewer.renderNode for a leaf node (leaves have no
children, so the bullet is rendered); the markup text follows the
template literal, with its insignificant indentation whitespace elided. -/
def renderNode (node : LeafNode) : String :=
  let icon := getNodeIcon node.type
  let isGroup := Js.includes node.id "-group"
  "<li class=\"tree-node " ++ (if isGroup then "tree-group" else "") ++
    "\" data-node-id=\"" ++ node.id ++ "\">" ++
    "<div class=\"tree-node-content\" data-node-id=\"" ++ node.id ++ "\">" ++
    "<span class=\"tree-toggle-empty\">•</span>" ++
    "<span class=\"tree-icon\">" ++ icon ++ "</span>" ++
    "<span class=\"tree-label\">" ++ escapeHtml node.name ++ "</span>" ++
    (if !isGroup && node.type == "route" then
      "<button class=\"copy-btn\" data-value=\"" ++ jsStr node.method ++ " " ++
        jsStr node.path ++ "\" title=\"Copy route\">📋</button>"
    else "") ++
    "</div></li>"

end TreeViewer

/-- Characters produced for a digit below ten are decimal digits. -/
theorem Js.digitChar_isDigit (d : Nat) (h : d < 10) : (Nat.digitChar d).isDigit = true := by
  interval_cases d <;> decide

/-- Code point of the character produced for a digit below ten. -/
theorem Js.digitChar_toNat (d : Nat) (h : d < 10) : (Nat.digitChar d).toNat = 48 + d := by
  interval_cases d <;> decide

/-- Every character of a rendered natural number is a decimal digit. -/
theorem Js.natCharsF_digits (fuel : Nat) : ∀ n, ∀ c ∈ Js.natCharsF fuel n, c.isDigit = true := by
  induction fuel with
  | zero => intro n c hc; simp [Js.natCharsF] at hc
  | succ f ih =>
    intro n c hc
    simp only [Js.natCharsF] at hc
    by_cases h : n < 10
    · rw [if_pos h] at hc
      simp only [List.mem_singleton] at hc
      subst hc
      exact Js.digitChar_isDigit n h
    · rw [if_neg h] at hc
      rcases List.mem_append.1 hc with hc | hc
      · exact ih (n / 10) c hc
      · simp only [List.mem_singleton] at hc
        subst hc
        exact Js.digitChar_isDigit (n % 10) (Nat.mod_lt _ (by omega))

/-- A rendered natural number has at least one digit. -/
theorem Js.natCharsF_ne_nil (fuel n : Nat) (h : 0 < fuel) : Js.natCharsF fuel n ≠ [] := by
  cases fuel with
  | zero => omega
  | succ f =>
    simp only [Js.natCharsF]
    split <;> simp

/-- Folding the digit-accumulation step over a rendered natural number. -/
theorem Js.natCharsF_foldl (fuel : Nat) : ∀ n, n < fuel → ∀ a : Nat,
    (Js.natCharsF fuel n).foldl (fun acc c => acc * 10 + (c.toNat - 48)) a =
      a * 10 ^ (Js.natCharsF fuel n).length + n := by
  induction fuel with
  | zero => intro n h; omega
  | succ f ih =>
    intro n hn a
    simp only [Js.natCharsF]
    by_cases h : n < 10
    · rw [if_pos h]
      simp only [List.foldl, List.length_singleton, Js.digitChar_toNat n h, pow_one]
      omega
    · rw [if_neg h]
      have hdiv : n / 10 < f := by
        have h1 : n / 10 < n := Nat.div_lt_self (by omega) (by omega)
        omega
      rw [List.foldl_append, ih (n / 10) hdiv a]
      simp only [List.foldl, List.length_append, List.length_singleton,
        Js.digitChar_toNat (n % 10) (Nat.mod_lt _ (by omega))]
      have hdm := Nat.div_add_mod n 10
      rw [pow_succ, ← mul_assoc]
      generalize a * 10 ^ (Js.natCharsF f (n / 10)).length = t
      omega

/-- The digit-list value of a rendered natural number is the number. -/
theorem Js.digitsVal_natChars (n : Nat) : Js.digitsVal (Js.natChars n) = n := by
  have h := Js.natCharsF_foldl (n + 1) n (by omega) 0
  simpa [Js.digitsVal, Js.natChars] using h

/-- A decimal digit is neither a sign character nor whitespace. -/
theorem Js.isDigit_props (c : Char) (h : c.isDigit = true) :
    ¬ c = '-' ∧ ¬ c = '+' ∧ c.isWhitespace = false := by
  refine ⟨?_, ?_, ?_⟩
  · rintro rfl; exact absurd h (by decide)
  · rintro rfl; exact absurd h (by decide)
  · by_contra hw
    have hw' : c.isWhitespace = true := by
      cases hws : c.isWhitespace
      · exact absurd hws hw
      · rfl
    simp only [Char.isWhitespace, Bool.or_eq_true, decide_eq_true_eq] at hw'
    rcases hw' with ((rfl | rfl) | rfl) | rfl <;> exact absurd h (by decide)

/-- takeWhile keeps a list all of whose elements satisfy the test. -/
theorem Js.takeWhile_all (p : α → Bool) (l : List α) (h : ∀ c ∈ l, p c = true) :
    l.takeWhile p = l := by
  induction l with
  | nil => rfl
  | cons a as ih =>
    simp only [List.takeWhile]
    rw [h a (by simp)]
    simp [ih (fun c hc => h c (by simp [hc]))]

/-- parseInt inverts the decimal rendering of a natural number. -/
theorem Js.parseInt_natToString (n : Nat) : Js.parseInt (Js.natToString n) = some (n : Int) := by
  have htl : (Js.natToString n).toList = Js.natChars n := rfl
  have hdig : ∀ c ∈ Js.natChars n, c.isDigit = true := Js.natCharsF_digits (n + 1) n
  have hne : Js.natChars n ≠ [] := Js.natCharsF_ne_nil (n + 1) n (by omega)
  rcases hl : Js.natChars n with _ | ⟨c, cs⟩
  · exact absurd hl hne
  · have hc : c.isDigit = true := hdig c (by rw [hl]; simp)
    rcases Js.isDigit_props c hc with ⟨hcm, hcp, hcw⟩
    have hdrop : (Js.natChars n).dropWhile (fun c => c.isWhitespace) = Js.natChars n := by
      rw [hl]
      simp [List.dropWhile, hcw]
    have hhead : (Js.natChars n).head? = some c := by rw [hl]; rfl
    have htake : (Js.natChars n).takeWhile (fun c => c.isDigit) = Js.natChars n :=
      Js.takeWhile_all _ _ hdig
    have hval := Js.digitsVal_natChars n
    have hdata : (Js.natToString n).data = Js.natChars n := rfl
    simp only [Js.parseInt, String.toList, hdata, hdrop, hhead]
    simp [hcm, hcp, htake, hne, hval]

/-- startsWithL accepts its own extension. -/
theorem Js.startsWithL_append [DecidableEq α] (p r : List α) :
    Js.startsWithL p (p ++ r) = true := by
  induction p with
  | nil => rfl
  | cons x ps ih => simp [Js.startsWithL, ih]

/-- startsWithL rejects on a head mismatch. -/
theorem Js.startsWithL_cons_ne [DecidableEq α] (x y : α) (ps l : List α) (h : ¬ x = y) :
    Js.startsWithL (x :: ps) (y :: l) = false := by
  simp [Js.startsWithL, h]

/-- splitChar always yields at least one segment. -/
theorem Js.splitChar_ne_nil (sep : Char) (cs : List Char) : Js.splitChar sep cs ≠ [] := by
  cases cs with
  | nil => simp [Js.splitChar]
  | cons c cs =>
    simp only [Js.splitChar]
    split <;> simp

/-- splitChar of a separator-free list is that single segment. -/
theorem Js.splitChar_noSep (sep : Char) (cs : List Char) (h : ∀ c ∈ cs, ¬ c = sep) :
    Js.splitChar sep cs = [cs] := by
  induction cs with
  | nil => rfl
  | cons c cs ih =>
    have hc : ¬ c = sep := h c (by simp)
    have ih' := ih (fun x hx => h x (by simp [hx]))
    simp [Js.splitChar, ih', hc]

/-- splitChar after a separator-free block followed by the separator. -/
theorem Js.splitChar_append (sep : Char) (a b : List Char) (h : ∀ c ∈ a, ¬ c = sep) :
    Js.splitChar sep (a ++ sep :: b) = a :: Js.splitChar sep b := by
  induction a with
  | nil => simp [Js.splitChar]
  | cons c cs ih =>
    have hc : ¬ c = sep := h c (by simp)
    have ih' := ih (fun x hx => h x (by simp [hx]))
    simp [Js.splitChar, ih', hc]

/-- mapIdxFrom preserves length. -/
theorem Js.mapIdxFrom_length (f : Nat → α → β) (k : Nat) (l : List α) :
    (Js.mapIdxFrom f k l).length = l.length := by
  induction l generalizing k with
  | nil => rfl
  | cons a as ih => simp [Js.mapIdxFrom, ih]

/-- Element lookup in mapIdxFrom. -/
theorem Js.mapIdxFrom_getElem? (f : Nat → α → β) (k i : Nat) (l : List α) :
    (Js.mapIdxFrom f k l)[i]? = (l[i]?).map (f (k + i)) := by
  induction l generalizing k i with
  | nil => simp [Js.mapIdxFrom]
  | cons a as ih =>
    cases i with
    | zero => simp [Js.mapIdxFrom]
    | succ j =>
      simp only [Js.mapIdxFrom, List.getElem?_cons_succ]
      rw [ih (k + 1) j]
      have hk : k + 1 + j = k + (j + 1) := by omega
      rw [hk]

/-- Splitting a dash-free block, a dash and a rendered number. -/
theorem Js.split_dash_nat (pre : List Char) (hpre : ∀ c ∈ pre, ¬ c = '-') (i : Nat)
    (s : String) (hs : s.toList = pre ++ '-' :: Js.natChars i) :
    Js.split s '-' = [String.mk pre, Js.natToString i] := by
  have hnod : ∀ c ∈ Js.natChars i, ¬ c = '-' :=
    fun c hc => (Js.isDigit_props c (Js.natCharsF_digits (i + 1) i c hc)).1
  unfold Js.split
  rw [hs, Js.splitChar_append '-' pre (Js.natChars i) hpre,
    Js.splitChar_noSep '-' (Js.natChars i) hnod]
  rfl

/-- startsWith is false when the very first characters differ. -/
theorem Js.startsWith_ne_head (s pre : String) (c d : Char) (cs ds : List Char)
    (hs : s.toList = c :: cs) (hp : pre.toList = d :: ds) (h : ¬ d = c) :
    Js.startsWith s pre = false := by
  unfold Js.startsWith
  rw [hs, hp]
  exact Js.startsWithL_cons_ne d c ds cs h

/-- C1 (amended): getNode inverts the buildTree node ids — for every
index i the id route-i, lambda-i or table-i resolves to the entity at
position i of the corresponding list of the same Manifest Model, with an
absent data field (not an absent result) when i is out of range; getNode
returns the absent result exactly for ids carrying none of the three
recognized prefixes, and never throws. -/
theorem TreeViewer.getNode_spec (d : TreeViewer.ArcData) :
    (∀ i : Nat, TreeViewer.getNode d ("route-" ++ Js.natToString i) =
        some ("route", (d.routes[i]?).map TreeViewer.Entity.route)) ∧
    (∀ i : Nat, TreeViewer.getNode d ("lambda-" ++ Js.natToString i) =
        some ("lambda", (d.lambdas[i]?).map TreeViewer.Entity.lambdaFn)) ∧
    (∀ i : Nat, TreeViewer.getNode d ("table-" ++ Js.natToString i) =
        some ("table", (d.tables[i]?).map TreeViewer.Entity.tableDef)) ∧
    (∀ s, Js.startsWith s "route-" = false → Js.startsWith s "lambda-" = false →
        Js.startsWith s "table-" = false → TreeViewer.getNode d s = none) := by
  refine ⟨?_, ?_, ?_, ?_⟩
  · intro i
    have hsw : Js.startsWith ("route-" ++ Js.natToString i) "route-" = true := by
      unfold Js.startsWith
      rw [show ("route-" ++ Js.natToString i).toList =
        "route-".toList ++ (Js.natToString i).toList from rfl]
      exact Js.startsWithL_append _ _
    have hsplit : Js.split ("route-" ++ Js.natToString i) '-' =
        ["route", Js.natToString i] :=
      Js.split_dash_nat ['r', 'o', 'u', 't', 'e'] (by decide) i _ rfl
    simp [TreeViewer.getNode, hsw, hsplit, Js.parseIntOpt, Js.parseInt_natToString,
      Js.indexOpt, Int.natCast_nonneg, Int.toNat_natCast]
  · intro i
    have h1 : Js.startsWith ("lambda-" ++ Js.natToString i) "route-" = false :=
      Js.startsWith_ne_head _ _ 'l' 'r' _ _ rfl rfl (by decide)
    have hsw : Js.startsWith ("lambda-" ++ Js.natToString i) "lambda-" = true := by
      unfold Js.startsWith
      rw [show ("lambda-" ++ Js.natToString i).toList =
        "lambda-".toList ++ (Js.natToString i).toList from rfl]
      exact Js.startsWithL_append _ _
    have hsplit : Js.split ("lambda-" ++ Js.natToString i) '-' =
        ["lambda", Js.natToString i] :=
      Js.split_dash_nat ['l', 'a', 'm', 'b', 'd', 'a'] (by decide) i _ rfl
    simp [TreeViewer.getNode, h1, hsw, hsplit, Js.parseIntOpt, Js.parseInt_natToString,
      Js.indexOpt, Int.natCast_nonneg, Int.toNat_natCast]
  · intro i
    have h1 : Js.startsWith ("table-" ++ Js.natToString i) "route-" = false :=
      Js.startsWith_ne_head _ _ 't' 'r' _ _ rfl rfl (by decide)
    have h2 : Js.startsWith ("table-" ++ Js.natToString i) "lambda-" = false :=
      Js.startsWith_ne_head _ _ 't' 'l' _ _ rfl rfl (by decide)
    have hsw : Js.startsWith ("table-" ++ Js.natToString i) "table-" = true := by
      unfold Js.startsWith
      rw [show ("table-" ++ Js.natToString i).toList =
        "table-".toList ++ (Js.natToString i).toList from rfl]
      exact Js.startsWithL_append _ _
    have hsplit : Js.split ("table-" ++ Js.natToString i) '-' =
        ["table", Js.natToString i] :=
      Js.split_dash_nat ['t', 'a', 'b', 'l', 'e'] (by decide) i _ rfl
    simp [TreeViewer.getNode, h1, h2, hsw, hsplit, Js.parseIntOpt, Js.parseInt_natToString,
      Js.indexOpt, Int.natCast_nonneg, Int.toNat_natCast]
  · intro s h1 h2 h3
    simp [TreeViewer.getNode, h1, h2, h3]

/-- A one-route Manifest Model used as concrete test data. -/
def TreeViewer.sampleArc : TreeViewer.ArcData :=
  { routes := [{ method := "GET", path := "/a", functionName := "getA" }] }

set_option maxRecDepth 8000 in
/-- C1 (counterexample): on a model with a single route, the ids route-5
(index out of range) and route-x (no numeric index) both resolve to a
present result with an absent data field, not to the absent result the
claim demands. -/
theorem TreeViewer.getNode_invalid_index_not_null :
    TreeViewer.sampleArc.routes.length = 1 ∧
    TreeViewer.getNode TreeViewer.sampleArc "route-5" = some ("route", none) ∧
    TreeViewer.getNode TreeViewer.sampleArc "route-x" = some ("route", none) := by
  decide

/-- Witness for C1: the round trip at index zero and the absent result
for an unrecognized prefix. -/
theorem TreeViewer.getNode_spec_witness :
    TreeViewer.getNode TreeViewer.sampleArc ("route-" ++ Js.natToString 0) =
      some ("route", some (TreeViewer.Entity.route
        { method := "GET", path := "/a", functionName := "getA" })) ∧
    TreeViewer.getNode TreeViewer.sampleArc "unknown" = none :=
  ⟨by rw [(TreeViewer.getNode_spec TreeViewer.sampleArc).1 0]; rfl,
   (TreeViewer.getNode_spec TreeViewer.sampleArc).2.2.2 "unknown"
     (by decide) (by decide) (by decide)⟩

/-- C4: a category group is in the built tree exactly when its toggle is
on and its source list is non-empty; there are at most three groups; the
children of each group list the source entries in order, the child at
position i carrying the id type-i. -/
theorem TreeViewer.buildTree_spec (d : TreeViewer.ArcData) (t : TreeViewer.ToggleStates) :
    ((∃ g ∈ TreeViewer.buildTree d t, g.id = "routes-group") ↔
      t.routes = true ∧ d.routes ≠ []) ∧
    ((∃ g ∈ TreeViewer.buildTree d t, g.id = "lambdas-group") ↔
      t.lambdas = true ∧ d.lambdas ≠ []) ∧
    ((∃ g ∈ TreeViewer.buildTree d t, g.id = "tables-group") ↔
      t.tables = true ∧ d.tables ≠ []) ∧
    (TreeViewer.buildTree d t).length ≤ 3 ∧
    (∀ g ∈ TreeViewer.buildTree d t,
      (g.id = "routes-group" →
        ∀ i : Nat, g.children[i]? = (d.routes[i]?).map (TreeViewer.routeChild i)) ∧
      (g.id = "lambdas-group" →
        ∀ i : Nat, g.children[i]? = (d.lambdas[i]?).map (TreeViewer.lambdaChild i)) ∧
      (g.id = "tables-group" →
        ∀ i : Nat, g.children[i]? = (d.tables[i]?).map (TreeViewer.tableChild i))) := by
  have hmem : ∀ g : TreeViewer.GroupNode, g ∈ TreeViewer.buildTree d t ↔
      ((t.routes && !d.routes.isEmpty) = true ∧ g = TreeViewer.routesGroup d) ∨
      ((t.lambdas && !d.lambdas.isEmpty) = true ∧ g = TreeViewer.lambdasGroup d) ∨
      ((t.tables && !d.tables.isEmpty) = true ∧ g = TreeViewer.tablesGroup d) := by
    intro g
    simp only [TreeViewer.buildTree, List.mem_append]
    split_ifs <;> simp_all [or_assoc] <;> tauto
  have hidr : (TreeViewer.routesGroup d).id = "routes-group" := rfl
  have hidl : (TreeViewer.lambdasGroup d).id = "lambdas-group" := rfl
  have hidt : (TreeViewer.tablesGroup d).id = "tables-group" := rfl
  refine ⟨?_, ?_, ?_, ?_, ?_⟩
  · constructor
    · rintro ⟨g, hg, hid⟩
      rcases (hmem g).1 hg with ⟨hc, rfl⟩ | ⟨hc, rfl⟩ | ⟨hc, rfl⟩
      · rw [Bool.and_eq_true] at hc
        obtain ⟨hr, hne⟩ := hc
        refine ⟨hr, fun hnil => ?_⟩
        rw [hnil] at hne
        simp at hne
      · rw [hidl] at hid
        exact absurd hid (by simp)
      · rw [hidt] at hid
        exact absurd hid (by simp)
    · rintro ⟨hr, hne⟩
      exact ⟨TreeViewer.routesGroup d,
        (hmem _).2 (Or.inl ⟨by simp [hr, List.isEmpty_iff, hne], rfl⟩), hidr⟩
  · constructor
    · rintro ⟨g, hg, hid⟩
      rcases (hmem g).1 hg with ⟨hc, rfl⟩ | ⟨hc, rfl⟩ | ⟨hc, rfl⟩
      · rw [hidr] at hid
        exact absurd hid (by simp)
      · rw [Bool.and_eq_true] at hc
        obtain ⟨hr, hne⟩ := hc
        refine ⟨hr, fun hnil => ?_⟩
        rw [hnil] at hne
        simp at hne
      · rw [hidt] at hid
        exact absurd hid (by simp)
    · rintro ⟨hr, hne⟩
      exact ⟨TreeViewer.lambdasGroup d,
        (hmem _).2 (Or.inr (Or.inl ⟨by simp [hr, List.isEmpty_iff, hne], rfl⟩)), hidl⟩
  · constructor
    · rintro ⟨g, hg, hid⟩
      rcases (hmem g).1 hg with ⟨hc, rfl⟩ | ⟨hc, rfl⟩ | ⟨hc, rfl⟩
      · rw [hidr] at hid
        exact absurd hid (by simp)
      · rw [hidl] at hid
        exact absurd hid (by simp)
      · rw [Bool.and_eq_true] at hc
        obtain ⟨hr, hne⟩ := hc
        refine ⟨hr, fun hnil => ?_⟩
        rw [hnil] at hne
        simp at hne
    · rintro ⟨hr, hne⟩
      exact ⟨TreeViewer.tablesGroup d,
        (hmem _).2 (Or.inr (Or.inr ⟨by simp [hr, List.isEmpty_iff, hne], rfl⟩)), hidt⟩
  · simp only [TreeViewer.buildTree, List.length_append]
    split_ifs <;> simp
  · intro g hg
    rcases (hmem g).1 hg with ⟨hc, rfl⟩ | ⟨hc, rfl⟩ | ⟨hc, rfl⟩
    · refine ⟨fun _ i => ?_, fun hid => ?_, fun hid => ?_⟩
      · simp only [TreeViewer.routesGroup]
        rw [Js.mapIdxFrom_getElem?, Nat.zero_add]
      · rw [hidr] at hid
        exact absurd hid (by simp)
      · rw [hidr] at hid
        exact absurd hid (by simp)
    · refine ⟨fun hid => ?_, fun _ i => ?_, fun hid => ?_⟩
      · rw [hidl] at hid
        exact absurd hid (by simp)
      · simp only [TreeViewer.lambdasGroup]
        rw [Js.mapIdxFrom_getElem?, Nat.zero_add]
      · rw [hidl] at hid
        exact absurd hid (by simp)
    · refine ⟨fun hid => ?_, fun hid => ?_, fun _ i => ?_⟩
      · rw [hidt] at hid
        exact absurd hid (by simp)
      · rw [hidt] at hid
        exact absurd hid (by simp)
      · simp only [TreeViewer.tablesGroup]
        rw [Js.mapIdxFrom_getElem?, Nat.zero_add]

/-- Toggle states with the lambda category switched off. -/
def TreeViewer.sampleToggles : TreeViewer.ToggleStates :=
  { routes := true, lambdas := false, tables := true }

/-- Witness for C4: the one-route model with routes toggled on yields the
routes group, and the tree never exceeds three groups. -/
theorem TreeViewer.buildTree_spec_witness :
    (∃ g ∈ TreeViewer.buildTree TreeViewer.sampleArc TreeViewer.sampleToggles,
      g.id = "routes-group") ∧
    (TreeViewer.buildTree TreeViewer.sampleArc TreeViewer.sampleToggles).length ≤ 3 :=
  ⟨(TreeViewer.buildTree_spec TreeViewer.sampleArc TreeViewer.sampleToggles).1.mpr
     ⟨rfl, by decide⟩,
   (TreeViewer.buildTree_spec TreeViewer.sampleArc TreeViewer.sampleToggles).2.2.2.1⟩

/-- A route node whose method carries a double quote. -/
def TreeViewer.quoteRouteNode : TreeViewer.LeafNode :=
  { id := "route-0", name := "G\"ET /x", type := "route",
    path := some "/x", method := some "G\"ET", functionName := some "f" }

set_option maxRecDepth 16000 in
/-- C10 (counterexample): escapeHtml leaves a double quote unchanged, so
in the rendered markup of a route whose method contains a double quote
the quote appears unescaped in the label as well as in the data-value
attribute, contradicting the claim that it appears escaped in the
label. -/
theorem TreeViewer.renderNode_quote_unescaped :
    TreeViewer.escapeHtml "G\"ET /x" = "G\"ET /x" ∧
    ¬ TreeViewer.escapeHtml "G\"ET /x" = "G&quot;ET /x" ∧
    Js.includes (TreeViewer.renderNode TreeViewer.quoteRouteNode)
      "<span class=\"tree-label\">G\"ET /x</span>" = true ∧
    Js.includes (TreeViewer.renderNode TreeViewer.quoteRouteNode)
      "data-value=\"G\"ET /x\"" = true := by
  decide

/-- C10 (amended): renderNode passes the route label through escapeHtml,
which escapes ampersand and the angle brackets but leaves double quotes
unchanged, while the method and path are interpolated verbatim into the
data-value attribute; hence ampersands and angle brackets appear escaped
in the label and raw in the attribute, and a double quote appears
unescaped in both. -/
theorem TreeViewer.renderNode_route_markup (name m p f nodeId : String)
    (hid : Js.includes nodeId "-group" = false) :
    TreeViewer.renderNode
      { id := nodeId, name := name, type := "route",
        path := some p, method := some m, functionName := some f } =
      "<li class=\"tree-node " ++ "\" data-node-id=\"" ++ nodeId ++ "\">" ++
      "<div class=\"tree-node-content\" data-node-id=\"" ++ nodeId ++ "\">" ++
      "<span class=\"tree-toggle-empty\">•</span>" ++
      "<span class=\"tree-icon\">" ++ "🛣️" ++ "</span>" ++
      "<span class=\"tree-label\">" ++ TreeViewer.escapeHtml name ++ "</span>" ++
      ("<button class=\"copy-btn\" data-value=\"" ++ m ++ " " ++ p ++
        "\" title=\"Copy route\">📋</button>") ++
      "</div></li>" ∧
    TreeViewer.escapeHtml "&" = "&amp;" ∧
    TreeViewer.escapeHtml "<" = "&lt;" ∧
    TreeViewer.escapeHtml ">" = "&gt;" ∧
    TreeViewer.escapeHtml "\"" = "\"" := by
  refine ⟨?_, by decide, by decide, by decide, by decide⟩
  simp [TreeViewer.renderNode, TreeViewer.getNodeIcon, TreeViewer.jsStr, hid,
    String.append_assoc]

/-- Witness for C10: the markup of a concrete quote-free route node. -/
theorem TreeViewer.renderNode_route_markup_witness :
    TreeViewer.renderNode
      { id := "route-0", name := "GET /x", type := "route",
        path := some "/x", method := some "GET", functionName := some "f" } =
      "<li class=\"tree-node " ++ "\" data-node-id=\"" ++ "route-0" ++ "\">" ++
      "<div class=\"tree-node-content\" data-node-id=\"" ++ "route-0" ++ "\">" ++
      "<span class=\"tree-toggle-empty\">•</span>" ++
      "<span class=\"tree-icon\">" ++ "🛣️" ++ "</span>" ++
      "<span class=\"tree-label\">" ++ TreeViewer.escapeHtml "GET /x" ++ "</span>" ++
      ("<button class=\"copy-btn\" data-value=\"" ++ "GET" ++ " " ++ "/x" ++
        "\" title=\"Copy route\">📋</button>") ++
      "</div></li>" :=
  (TreeViewer.renderNode_route_markup "GET /x" "GET" "/x" "f" "route-0" (by decide)).1

/-- C5: getLinkPath maps the four documented inputs to their documented
paths and returns an absent result for every other node type. -/
theorem FileLinker.getLinkPath_spec :
    FileLinker.getLinkPath "route" "GET /api/users" = some "src/http/get-api-users/index.mjs" ∧
    FileLinker.getLinkPath "route" "/api/users" = some "src/http/get-api-users/index.mjs" ∧
    FileLinker.getLinkPath "lambda" "notifier" = some "src/lambdas/notifier" ∧
    FileLinker.getLinkPath "table" "users" = some "src/tables/users.ts" ∧
    (∀ t n, t ≠ "route" → t ≠ "lambda" → t ≠ "table" →
      FileLinker.getLinkPath t n = none) := by
  refine ⟨by decide, by decide, by decide, by decide, ?_⟩
  intro t n h1 h2 h3
  simp [FileLinker.getLinkPath, h1, h2, h3]

/-- Witness for C5: a node type other than route, lambda, table resolves
to no path. -/
theorem FileLinker.getLinkPath_spec_witness :
    FileLinker.getLinkPath "widget" "x" = none :=
  FileLinker.getLinkPath_spec.2.2.2.2 "widget" "x"
    (by decide) (by decide) (by decide)

/-- C7: the ARN string is the literal arn:arc:route:method:path and two
different region arguments always produce the identical string. -/
theorem ArcCopy.copyArnString_region_irrelevant :
    ∀ m p r₁ r₂, ArcCopy.copyArnString m p r₁ = ArcCopy.copyArnString m p r₂ ∧
      ArcCopy.copyArnString m p r₁ = "arn:arc:route:" ++ m ++ ":" ++ p :=
  fun _ _ _ _ => ⟨rfl, rfl⟩

/-- C6: copy always returns a plain boolean (never a thrown exception),
and both copy and the execCommand fallback leave the number of temporary
textarea elements in the document unchanged on every path. -/
theorem ArcCopy.copy_total_and_cleanup :
    ∀ (env : ArcCopy.CopyEnv) (dom : ArcCopy.Dom) (text : String),
      (∃ b, (ArcCopy.copy env dom text).1 = Js.Outcome.ok b) ∧
      ((ArcCopy.copy env dom text).2).tempTextareas = dom.tempTextareas ∧
      ((ArcCopy.copyUsingExecCommand env dom text).2).tempTextareas = dom.tempTextareas := by
  intro env dom text
  refine ⟨?_, ?_, ?_⟩ <;>
    simp only [ArcCopy.copy, ArcCopy.copyUsingExecCommand, ArcCopy.showToast] <;>
    rcases env with ⟨ca, sc, w, e⟩ <;>
    rcases w with _ | _ <;>
    rcases e with b | _ <;>
    first
      | (cases b <;> split <;> simp)
      | (split <;> simp)
